import Mathlib

/-!
# Verification of the ASCLEPIO CLASS Live Session Orchestrator

Shallow embedding of the orchestrator core of `src/App.tsx` and the data
model of `src/types.ts`: the per-session state (transcript, archived notes,
single active note, error flag, countdown), the `onMessage` event handler
(transcript deltas, turn boundaries, tool-call dispatch), the session-start
reset and tool-schema declaration, and the finalize step
(`generateSessionReportAndTitle` plus the record construction in
`stopSession`).

Modelling conventions:
* `crypto.randomUUID()` is modelled by a fresh-id counter (`nextId`)
  threaded through the state; externally supplied fresh values
  (record id, `Date.now()`, `toLocaleString()`) are parameters.
* JavaScript truthiness of an optional string field (`fc.args.tip`,
  `result.title || fallback`) is `jsTruthy`: absent and `""` are falsy.
* The fallible remote summarization call is a `RemoteResult` parameter:
  `failure` covers a thrown error (network failure or `JSON.parse` on
  malformed text, both landing in the `catch`), `success t r` a parsed
  JSON object whose `title`/`report` fields may be absent.
* Speech output is modelled as a log of the texts passed to `speak`.
-/

namespace Asclepio

/-- Note kind tag, from `src/types.ts`: `type: 'tip' | 'qa' | 'context'`. -/
inductive NoteType where
  | tip
  | qa
  | context
deriving DecidableEq, Repr

/-- `Note` from `src/types.ts`: id, kind tag, content, and the optional
`question` / `topic` fields used by `qa` / `context` notes. -/
structure Note where
  id : Nat
  type : NoteType
  content : String
  question : Option String := none
  topic : Option String := none
deriving DecidableEq, Repr

/-- `SessionRecord` from `src/types.ts`. -/
structure SessionRecord where
  id : Nat
  title : String
  date : Nat
  transcription : String
  notes : List Note
  report : String
deriving DecidableEq, Repr

/-- JavaScript truthiness of an optional string field: an absent field and
the empty string are falsy, every other string is truthy. -/
def jsTruthy : Option String → Bool
  | none => false
  | some s => s != ""

/-- The argument object `fc.args` of a function call; fields the remote
service did not supply are `none`. -/
structure FCArgs where
  tip : Option String := none
  question : Option String := none
  answer : Option String := none
  topic : Option String := none
  explanation : Option String := none
deriving DecidableEq, Repr

/-- One function-call invocation, as found in `message.toolCall.functionCalls`. -/
structure FunctionCall where
  name : String
  args : FCArgs
deriving DecidableEq, Repr

/-- The parts of a `LiveServerMessage` the handler `onMessage`
(src/App.tsx:130-148) reads: an optional transcription delta, the
turn-complete flag, and an optional list of function calls. -/
structure ServerMessage where
  inputTranscription : Option String := none
  turnComplete : Bool := false
  functionCalls : Option (List FunctionCall) := none
deriving DecidableEq, Repr

/-- `const MAX_SESSION_TIME_SECONDS = 600` (src/App.tsx:7). -/
def MAX_SESSION_TIME_SECONDS : Int := 600

/-- The orchestrator's per-session mutable state: the React state cells
read and written by `onMessage`, `startSession` and `stopSession`
(`transcription`, `notes`, `activeAiResponse`, `error`, `timeLeft`,
`isListening`), plus the fresh-id counter standing in for
`crypto.randomUUID()` and the log of texts handed to `speak`. -/
structure OrchState where
  transcription : String
  notes : List Note
  activeAiResponse : Option Note
  error : Option String
  timeLeft : Int
  isListening : Bool
  nextId : Nat
  speech : List String
deriving DecidableEq, Repr

/-- The blank mount state (all cells at their `useState` initial values). -/
def initialState : OrchState :=
  { transcription := "", notes := [], activeAiResponse := none, error := none,
    timeLeft := MAX_SESSION_TIME_SECONDS, isListening := false,
    nextId := 0, speech := [] }

/-- Dispatch of one function-call invocation, src/App.tsx:135-146:
a valid `addNote` appends a `tip` note to `notes`; a valid
`answerQuestion` / `provideContext` builds a `qa` / `context` note and
overwrites `activeAiResponse`; everything else falls through unchanged. -/
def processFunctionCall (s : OrchState) (fc : FunctionCall) : OrchState :=
  if fc.name = "addNote" ∧ jsTruthy fc.args.tip then
    let newNote : Note := { id := s.nextId, type := .tip, content := fc.args.tip.getD "" }
    { s with notes := s.notes ++ [newNote], nextId := s.nextId + 1,
             speech := s.speech ++ ["Nota añadida: " ++ newNote.content] }
  else if fc.name = "answerQuestion" ∧ jsTruthy fc.args.question ∧ jsTruthy fc.args.answer then
    let newNote : Note := { id := s.nextId, type := .qa,
                            content := fc.args.answer.getD "",
                            question := fc.args.question }
    { s with activeAiResponse := some newNote, nextId := s.nextId + 1,
             speech := s.speech ++ [newNote.content] }
  else if fc.name = "provideContext" ∧ jsTruthy fc.args.topic ∧ jsTruthy fc.args.explanation then
    let newNote : Note := { id := s.nextId, type := .context,
                            content := fc.args.explanation.getD "",
                            topic := fc.args.topic }
    { s with activeAiResponse := some newNote, nextId := s.nextId + 1,
             speech := s.speech ++ [fc.args.topic.getD "" ++ ": " ++ newNote.content] }
  else s

/-- The `onMessage` handler, src/App.tsx:130-148: append the transcription
delta if present, then append one space if `turnComplete`, then process the
function calls in listed order. -/
def processMessage (s : OrchState) (m : ServerMessage) : OrchState :=
  let s1 := match m.inputTranscription with
    | some t => { s with transcription := s.transcription ++ t }
    | none => s
  let s2 := if m.turnComplete then { s1 with transcription := s1.transcription ++ " " } else s1
  match m.functionCalls with
  | some fcs => fcs.foldl processFunctionCall s2
  | none => s2

/-- `startSession`, src/App.tsx:123-163, at the state level: the reset of
error, transcript, notes, active note and countdown happens synchronously
first (line 124), before the `await` on microphone acquisition; the `catch`
on failed acquisition then sets the error message and clears `isListening`
(line 162). `deviceOk` is the outcome of the device/channel acquisition. -/
def startSession (s : OrchState) (deviceOk : Bool) : OrchState :=
  let s1 : OrchState :=
    { s with error := none, transcription := "", notes := [],
             activeAiResponse := none, timeLeft := MAX_SESSION_TIME_SECONDS,
             isListening := true }
  if deviceOk then s1
  else { s1 with error := some "No se pudo acceder al micrófono.", isListening := false }

/-- The names of the tool schemas declared at session start,
src/App.tsx:150-151: `addNote` and `answerQuestion` always,
`provideContext` pushed only when the contextualize setting is enabled. -/
def declaredTools (isContextualizeEnabled : Bool) : List String :=
  let base := ["addNote", "answerQuestion"]
  if isContextualizeEnabled then base ++ ["provideContext"] else base

/-- Outcome of the one-shot remote summarization call in
`generateSessionReportAndTitle`: `failure` is any thrown error (network
failure, or `JSON.parse` on a malformed response text — both reach the
`catch` block); `success t r` is a parsed JSON object whose `title` and
`report` fields may each be absent. -/
inductive RemoteResult where
  | failure
  | success (title : Option String) (report : Option String)
deriving DecidableEq, Repr

/-- The `{title, report}` pair returned by `generateSessionReportAndTitle`. -/
structure ReportTitle where
  title : String
  report : String
deriving DecidableEq, Repr

/-- Model of JavaScript `String.prototype.trim` used on line 76 of the
source (`!finalTranscription.trim()`): drop whitespace characters from
both ends of the string. Defined over the character list so that it
evaluates by kernel reduction. -/
def jsTrim (s : String) : String :=
  String.mk (((s.data.dropWhile Char.isWhitespace).reverse.dropWhile Char.isWhitespace).reverse)

/-- One line of the flattened notes inside the prompt, src/App.tsx:79:
`- P: question R: content` for a `qa` note, `- content` otherwise. -/
def noteLine (n : Note) : String :=
  "- " ++ (if n.type = NoteType.qa
           then "P: " ++ n.question.getD "" ++ " R: " ++ n.content
           else n.content)

/-- The single prompt sent to the remote summarization call,
src/App.tsx:79: fixed instructions, then the transcript in quotes, then the
flattened notes joined by newlines. -/
def reportPrompt (finalTranscription : String) (finalNotes : List Note) : String :=
  "Basado en la siguiente transcripción y notas de una clase o reunión, genera un título conciso (máximo 10 palabras) y un informe completo en formato Markdown. El informe debe estructurar la información clave, los conceptos principales discutidos, las preguntas respondidas y las tareas o puntos importantes a recordar.\n\nTranscripción:\n\"" ++
    finalTranscription ++ "\"\n\nNotas Tomadas:\n" ++
    String.intercalate "\n" (finalNotes.map noteLine)

/-- `generateSessionReportAndTitle`, src/App.tsx:75-94. `dateStr` models
`new Date().toLocaleString()`; `remote` is the remote service as a function
from the prompt to the call's outcome. A blank transcript short-circuits
before the remote call (line 76); a thrown error lands in the `catch`
(lines 90-93); on a parsed response each missing/empty field falls back
individually via `||` (line 89). Total on every path: the source never
rethrows. -/
def generateSessionReportAndTitle (dateStr : String) (remote : String → RemoteResult)
    (finalTranscription : String) (finalNotes : List Note) : ReportTitle :=
  if jsTrim finalTranscription = "" then
    { title := "Sesión del " ++ dateStr, report := "No se grabó ninguna transcripción." }
  else
    match remote (reportPrompt finalTranscription finalNotes) with
    | .failure =>
        { title := "Sesión del " ++ dateStr ++ " (Error)",
          report := "Ocurrió un error al generar el informe de la sesión." }
    | .success t r =>
        { title := if jsTruthy t then t.getD "" else "Sesión del " ++ dateStr,
          report := if jsTruthy r then r.getD "" else "No se pudo generar el informe." }

/-- The `SessionRecord` built by `stopSession`, src/App.tsx:105-110:
final notes are the archived list with the active note (if any) appended,
the title/report come from `generateSessionReportAndTitle`, and the record
gets a fresh id (`crypto.randomUUID()`, modelled by `freshId`) and the
current timestamp (`Date.now()`, modelled by `now`). -/
def stopSessionRecord (freshId : Nat) (now : Nat) (dateStr : String)
    (remote : String → RemoteResult) (s : OrchState) : SessionRecord :=
  let finalTranscription := s.transcription
  let finalNotes := match s.activeAiResponse with
    | some a => s.notes ++ [a]
    | none => s.notes
  let rt := generateSessionReportAndTitle dateStr remote finalTranscription finalNotes
  { id := freshId, title := rt.title, date := now,
    transcription := finalTranscription, notes := finalNotes, report := rt.report }

/-- A transcript-delta event. -/
def deltaMsg (t : String) : ServerMessage := { inputTranscription := some t }

/-- A turn-complete event. -/
def turnCompleteMsg : ServerMessage := { turnComplete := true }

/-- A tool-call event carrying the given invocations. -/
def toolCallMsg (fcs : List FunctionCall) : ServerMessage := { functionCalls := some fcs }

/-- An `addNote` invocation with the given (possibly absent) `tip`. -/
def mkAddNote (tip : Option String) : FunctionCall :=
  { name := "addNote", args := { tip := tip } }

/-- An `answerQuestion` invocation. -/
def mkAnswerQuestion (q a : Option String) : FunctionCall :=
  { name := "answerQuestion", args := { question := q, answer := a } }

/-- A `provideContext` invocation. -/
def mkProvideContext (t e : Option String) : FunctionCall :=
  { name := "provideContext", args := { topic := t, explanation := e } }

/-- Reachable-state invariant: every note id already issued is below the
fresh-id counter, and the active note (if any) has an issued id and is not
also archived. Holds at the blank state and is preserved by message
processing — in the source, ids are `crypto.randomUUID()` values, fresh on
every creation. -/
def stateInv (s : OrchState) : Prop :=
  (∀ n ∈ s.notes, n.id < s.nextId) ∧
  (∀ a ∈ s.activeAiResponse, a.id < s.nextId ∧ a ∉ s.notes)

lemma stateInv_initialState : stateInv initialState := by
  constructor
  · intro n hn
    simp [initialState] at hn
  · intro a ha
    simp [initialState] at ha

/-- Message processing never touches the error flag: no error is surfaced
by transcript deltas, turn boundaries or tool calls. -/
lemma processFunctionCall_error (s : OrchState) (fc : FunctionCall) :
    (processFunctionCall s fc).error = s.error := by
  unfold processFunctionCall
  split_ifs <;> rfl

/-- Tool-call dispatch never touches the transcript. -/
lemma processFunctionCall_transcription (s : OrchState) (fc : FunctionCall) :
    (processFunctionCall s fc).transcription = s.transcription := by
  unfold processFunctionCall
  split_ifs <;> rfl

/-- A valid `addNote` invocation appends one `tip` note and bumps the
fresh-id counter; nothing else changes except the speech log. -/
lemma processFunctionCall_addNote (s : OrchState) (fc : FunctionCall)
    (hname : fc.name = "addNote") (htip : jsTruthy fc.args.tip) :
    processFunctionCall s fc =
      { s with
        notes := s.notes ++ [{ id := s.nextId, type := .tip, content := fc.args.tip.getD "" }],
        nextId := s.nextId + 1,
        speech := s.speech ++ ["Nota añadida: " ++ fc.args.tip.getD ""] } := by
  unfold processFunctionCall
  simp [hname, htip]

/-- A valid `answerQuestion` invocation overwrites the active slot with a
fresh `qa` note; archived notes and transcript are untouched. -/
lemma processFunctionCall_answerQuestion (s : OrchState) (fc : FunctionCall)
    (hname : fc.name = "answerQuestion")
    (hq : jsTruthy fc.args.question) (ha : jsTruthy fc.args.answer) :
    processFunctionCall s fc =
      { s with
        activeAiResponse := some { id := s.nextId, type := .qa,
                                   content := fc.args.answer.getD "",
                                   question := fc.args.question },
        nextId := s.nextId + 1,
        speech := s.speech ++ [fc.args.answer.getD ""] } := by
  unfold processFunctionCall
  simp [hname, hq, ha]

/-- A valid `provideContext` invocation overwrites the active slot with a
fresh `context` note; archived notes and transcript are untouched. -/
lemma processFunctionCall_provideContext (s : OrchState) (fc : FunctionCall)
    (hname : fc.name = "provideContext")
    (ht : jsTruthy fc.args.topic) (he : jsTruthy fc.args.explanation) :
    processFunctionCall s fc =
      { s with
        activeAiResponse := some { id := s.nextId, type := .context,
                                   content := fc.args.explanation.getD "",
                                   topic := fc.args.topic },
        nextId := s.nextId + 1,
        speech := s.speech ++ [fc.args.topic.getD "" ++ ": " ++ fc.args.explanation.getD ""] } := by
  unfold processFunctionCall
  simp [hname, ht, he]

lemma stateInv_processFunctionCall (s : OrchState) (fc : FunctionCall)
    (h : stateInv s) : stateInv (processFunctionCall s fc) := by
  obtain ⟨hn, ha⟩ := h
  unfold processFunctionCall
  split_ifs with h1 h2 h3
  · refine ⟨?_, ?_⟩
    · intro n hmem
      simp only [List.mem_append, List.mem_singleton] at hmem
      rcases hmem with hmem | hmem
      · exact Nat.lt_succ_of_lt (hn n hmem)
      · subst hmem; exact Nat.lt_succ_self _
    · intro a hmem
      refine ⟨Nat.lt_succ_of_lt (ha a hmem).1, ?_⟩
      simp only [List.mem_append, List.mem_singleton]
      rintro (hin | heq)
      · exact (ha a hmem).2 hin
      · have : a.id < s.nextId := (ha a hmem).1
        rw [heq] at this
        exact absurd this (Nat.lt_irrefl _)
  · refine ⟨?_, ?_⟩
    · intro n hmem
      exact Nat.lt_succ_of_lt (hn n hmem)
    · intro a hmem
      simp only [Option.mem_def, Option.some.injEq] at hmem
      subst hmem
      refine ⟨Nat.lt_succ_self _, ?_⟩
      intro hin
      have := hn _ hin
      exact absurd this (Nat.lt_irrefl _)
  · refine ⟨?_, ?_⟩
    · intro n hmem
      exact Nat.lt_succ_of_lt (hn n hmem)
    · intro a hmem
      simp only [Option.mem_def, Option.some.injEq] at hmem
      subst hmem
      refine ⟨Nat.lt_succ_self _, ?_⟩
      intro hin
      have := hn _ hin
      exact absurd this (Nat.lt_irrefl _)
  · exact ⟨hn, ha⟩

lemma stateInv_foldl (fcs : List FunctionCall) (s : OrchState)
    (h : stateInv s) : stateInv (fcs.foldl processFunctionCall s) := by
  induction fcs generalizing s with
  | nil => exact h
  | cons fc rest ih =>
      exact ih _ (stateInv_processFunctionCall s fc h)

lemma stateInv_processMessage (s : OrchState) (m : ServerMessage)
    (h : stateInv s) : stateInv (processMessage s m) := by
  unfold processMessage
  obtain ⟨hn, ha⟩ := h
  have hbase : ∀ t : String, stateInv { s with transcription := t } := fun t => ⟨hn, ha⟩
  cases m.inputTranscription <;> cases hm : m.turnComplete <;>
    cases m.functionCalls <;>
    simp only [] <;>
    first
      | exact ⟨hn, ha⟩
      | exact hbase _
      | exact stateInv_foldl _ _ ⟨hn, ha⟩

/-- An `addNote` invocation whose `tip` is absent or empty falls through
every branch and leaves the state untouched. -/
lemma processFunctionCall_addNote_invalid (s : OrchState) (t : Option String)
    (htip : ¬ jsTruthy t) :
    processFunctionCall s (mkAddNote t) = s := by
  unfold processFunctionCall mkAddNote
  simp [htip]

/-! ## Claim theorems -/

/-- **C1.** The active slot holds at most one note by construction
(`activeAiResponse : Option Note`), and processing a valid
`answerQuestion` or `provideContext` tool-call while a note is active
replaces the active note with the new `qa`/`context` note; the previous
active note is dropped entirely: afterwards it is neither the active note
nor anywhere in the archived sequence (src/App.tsx:139-145, which only
overwrite `activeAiResponse` and never touch `notes`). The hypotheses
`hid` and `harch` are the reachable-state invariant `stateInv`
(established by `stateInv_initialState` and `stateInv_processMessage`). -/
theorem active_note_overwrite_drops_previous (s : OrchState) (old : Note)
    (fc : FunctionCall)
    (_hact : s.activeAiResponse = some old)
    (hid : old.id < s.nextId) (harch : old ∉ s.notes)
    (hfc : (fc.name = "answerQuestion" ∧ jsTruthy fc.args.question ∧ jsTruthy fc.args.answer) ∨
           (fc.name = "provideContext" ∧ jsTruthy fc.args.topic ∧ jsTruthy fc.args.explanation)) :
    ∃ newNote : Note,
      (processFunctionCall s fc).activeAiResponse = some newNote ∧
      newNote ≠ old ∧
      (fc.name = "answerQuestion" → newNote.type = NoteType.qa) ∧
      (fc.name = "provideContext" → newNote.type = NoteType.context) ∧
      (processFunctionCall s fc).notes = s.notes ∧
      old ∉ (processFunctionCall s fc).notes ∧
      (processFunctionCall s fc).activeAiResponse ≠ some old := by
  have hne : ∀ n : Note, n.id = s.nextId → n ≠ old := by
    intro n hn heq
    rw [heq] at hn
    rw [hn] at hid
    exact Nat.lt_irrefl _ hid
  rcases hfc with ⟨hname, hq, ha⟩ | ⟨hname, ht, he⟩
  · rw [processFunctionCall_answerQuestion s fc hname hq ha]
    refine ⟨_, rfl, hne _ rfl, fun _ => rfl, fun hpc => ?_, rfl, harch, ?_⟩
    · rw [hname] at hpc
      exact absurd hpc (by decide)
    · intro hcontra
      simp only [Option.some.injEq] at hcontra
      exact hne _ rfl hcontra
  · rw [processFunctionCall_provideContext s fc hname ht he]
    refine ⟨_, rfl, hne _ rfl, fun hpc => ?_, fun _ => rfl, rfl, harch, ?_⟩
    · rw [hname] at hpc
      exact absurd hpc (by decide)
    · intro hcontra
      simp only [Option.some.injEq] at hcontra
      exact hne _ rfl hcontra

/-- Concrete pending context note for the C1 witness. -/
def oldCtxNote : Note :=
  { id := 0, type := .context, content := "Explicación previa", topic := some "Tema previo" }

/-- A reachable-shape state with `oldCtxNote` pending in the active slot. -/
def stateWithActive : OrchState :=
  { initialState with activeAiResponse := some oldCtxNote, nextId := 1 }

/-- Witness for C1: a concrete `answerQuestion` call over a state with a
pending context note drops that note completely. -/
theorem active_note_overwrite_drops_previous_witness :
    oldCtxNote ∉ (processFunctionCall stateWithActive
        (mkAnswerQuestion (some "Pregunta") (some "Respuesta"))).notes ∧
    (processFunctionCall stateWithActive
        (mkAnswerQuestion (some "Pregunta") (some "Respuesta"))).activeAiResponse ≠
      some oldCtxNote := by
  obtain ⟨n, _, _, _, _, _, h6, h7⟩ :=
    active_note_overwrite_drops_previous stateWithActive oldCtxNote
      (mkAnswerQuestion (some "Pregunta") (some "Respuesta"))
      rfl (by decide) (by decide) (Or.inl ⟨rfl, by decide, by decide⟩)
  exact ⟨h6, h7⟩

/-- **C2 counterexample.** From the blank state, the event sequence
transcript-delta "Hola", turn-complete, transcript-delta " mundo" yields
the transcript "Hola  mundo" — the turn boundary appends one space and the
second delta carries its own leading space — not "Hola mundo " as the
claim states. -/
theorem transcript_scenario_counterexample :
    ([deltaMsg "Hola", turnCompleteMsg, deltaMsg " mundo"].foldl processMessage
        initialState).transcription = "Hola  mundo" ∧
    "Hola  mundo" ≠ "Hola mundo " := by
  exact ⟨rfl, by decide⟩

/-- **C2 (amended).** The transcript is built by appending each
transcript-delta's text in arrival order and appending a single space on
each turn-complete event (src/App.tsx:131-132); consequently the sequence
transcript-delta "Hola", turn-complete, transcript-delta " mundo" from the
blank state yields "Hola  mundo" (with two spaces), since the boundary
space and the delta's own leading space are both kept. -/
theorem transcript_build_rules (s : OrchState) (t : String) :
    (processMessage s (deltaMsg t)).transcription = s.transcription ++ t ∧
    (processMessage s turnCompleteMsg).transcription = s.transcription ++ " " ∧
    ([deltaMsg "Hola", turnCompleteMsg, deltaMsg " mundo"].foldl processMessage
        initialState).transcription = "Hola  mundo" := by
  exact ⟨rfl, rfl, rfl⟩

/-- **C3 counterexample.** On a non-empty transcript, a remote response
that parses but is missing both fields does *not* produce the
error-annotated title and the fixed error string: each field falls back
individually (src/App.tsx:89) — the title is the plain timestamp-derived
one with no error marker and the report is the distinct fallback string
"No se pudo generar el informe.". -/
theorem finalize_missing_fields_counterexample :
    (generateSessionReportAndTitle "1/1/2025" (fun _ => RemoteResult.success none none)
        "Hola" []).title = "Sesión del 1/1/2025" ∧
    (generateSessionReportAndTitle "1/1/2025" (fun _ => RemoteResult.success none none)
        "Hola" []).report = "No se pudo generar el informe." ∧
    (generateSessionReportAndTitle "1/1/2025" (fun _ => RemoteResult.success none none)
        "Hola" []).report ≠ "Ocurrió un error al generar el informe de la sesión." ∧
    (generateSessionReportAndTitle "1/1/2025" (fun _ => RemoteResult.success none none)
        "Hola" []).title ≠ "Sesión del 1/1/2025 (Error)" := by
  exact ⟨rfl, rfl, by decide, by decide⟩

/-- **C3 (amended).** For every non-empty transcript, finalize returns
normally on every failure shape (`generateSessionReportAndTitle` is a
total function — the source catches every thrown error): when the remote
call throws (network error or malformed JSON), the record has the
timestamp-derived title annotated with " (Error)" and the fixed error
report string; when the call returns a parsed object whose title/report
fields are missing or empty, each field falls back individually — plain
timestamp-derived title without an error marker, and the distinct fallback
report "No se pudo generar el informe.". -/
theorem finalize_failure_paths (dateStr t : String) (notes : List Note)
    (remote : String → RemoteResult) (ht : ¬ jsTrim t = "") :
    (remote (reportPrompt t notes) = RemoteResult.failure →
      generateSessionReportAndTitle dateStr remote t notes =
        { title := "Sesión del " ++ dateStr ++ " (Error)",
          report := "Ocurrió un error al generar el informe de la sesión." }) ∧
    (∀ topt ropt : Option String,
      remote (reportPrompt t notes) = RemoteResult.success topt ropt →
      jsTruthy topt = false → jsTruthy ropt = false →
      generateSessionReportAndTitle dateStr remote t notes =
        { title := "Sesión del " ++ dateStr,
          report := "No se pudo generar el informe." }) := by
  constructor
  · intro hr
    unfold generateSessionReportAndTitle
    rw [if_neg ht, hr]
  · intro topt ropt hr htop hrep
    unfold generateSessionReportAndTitle
    rw [if_neg ht, hr]
    simp [htop, hrep]

/-- Witness for C3 (amended): concrete throwing remote call on a
one-character transcript. -/
theorem finalize_failure_paths_witness :
    generateSessionReportAndTitle "2/2/2025" (fun _ => RemoteResult.failure) "x" [] =
      { title := "Sesión del 2/2/2025 (Error)",
        report := "Ocurrió un error al generar el informe de la sesión." } :=
  (finalize_failure_paths "2/2/2025" "x" [] (fun _ => RemoteResult.failure) (by decide)).1 rfl

/-- **C4.** For every empty or whitespace-only transcript, finalize
deterministically returns the record with the timestamp-derived title and
the fixed "no transcript" report, and its result does not depend on the
remote summarization call at all (the source short-circuits on line 76
before constructing the client): the call is never invoked. Totality of
`generateSessionReportAndTitle` gives "without failing or blocking". -/
theorem finalize_empty_transcript (dateStr t : String) (notes : List Note)
    (remote remote2 : String → RemoteResult) (ht : jsTrim t = "") :
    generateSessionReportAndTitle dateStr remote t notes =
      { title := "Sesión del " ++ dateStr,
        report := "No se grabó ninguna transcripción." } ∧
    generateSessionReportAndTitle dateStr remote t notes =
      generateSessionReportAndTitle dateStr remote2 t notes := by
  constructor <;> · unfold generateSessionReportAndTitle; simp [ht]

/-- Witness for C4: a whitespace-only transcript with two remotes that
would give different answers if consulted. -/
theorem finalize_empty_transcript_witness :
    generateSessionReportAndTitle "3/3/2025" (fun _ => RemoteResult.failure) "  " [] =
      { title := "Sesión del 3/3/2025",
        report := "No se grabó ninguna transcripción." } ∧
    generateSessionReportAndTitle "3/3/2025" (fun _ => RemoteResult.failure) "  " [] =
      generateSessionReportAndTitle "3/3/2025"
        (fun _ => RemoteResult.success (some "T") (some "R")) "  " [] :=
  finalize_empty_transcript "3/3/2025" "  " []
    (fun _ => RemoteResult.failure)
    (fun _ => RemoteResult.success (some "T") (some "R")) (by decide)

/-- **C5.** Every valid `addNote` call (non-empty `tip`) appends exactly
one `tip` note directly to the archived sequence, bypassing the active
slot (src/App.tsx:136-138 touch only `notes`): after any sequence of
`addNote` calls the active slot and transcript are unchanged, the archived
sequence is the original one followed by the valid tips as `tip` notes in
call order, and its length grew by the number of valid calls. -/
theorem addNote_appends_in_order (tips : List (Option String)) (s : OrchState) :
    ((tips.map mkAddNote).foldl processFunctionCall s).activeAiResponse = s.activeAiResponse ∧
    ((tips.map mkAddNote).foldl processFunctionCall s).transcription = s.transcription ∧
    ((tips.map mkAddNote).foldl processFunctionCall s).notes.map (fun n => (n.type, n.content)) =
      s.notes.map (fun n => (n.type, n.content)) ++
        (tips.filter (fun t => jsTruthy t)).map (fun t => (NoteType.tip, t.getD "")) ∧
    ((tips.map mkAddNote).foldl processFunctionCall s).notes.length =
      s.notes.length + (tips.filter (fun t => jsTruthy t)).length := by
  induction tips generalizing s with
  | nil => simp
  | cons t rest ih =>
      simp only [List.map_cons, List.foldl_cons, List.filter_cons]
      by_cases htip : jsTruthy t
      · rw [processFunctionCall_addNote s (mkAddNote t) rfl htip]
        obtain ⟨h1, h2, h3, h4⟩ := ih
          { s with
            notes := s.notes ++
              [{ id := s.nextId, type := .tip, content := (mkAddNote t).args.tip.getD "" }],
            nextId := s.nextId + 1,
            speech := s.speech ++ ["Nota añadida: " ++ (mkAddNote t).args.tip.getD ""] }
        refine ⟨h1, h2, ?_, ?_⟩
        · rw [h3]
          simp [mkAddNote, htip, List.append_assoc]
        · rw [h4]
          simp [htip, List.length_append]
          omega
      · rw [processFunctionCall_addNote_invalid s t htip]
        have hfilter : (fun u => jsTruthy u) t = false := by
          simpa using htip
        simp only [hfilter, Bool.false_eq_true, if_false]
        exact ih s

/-- A tool-call invocation the handler ignores: unrecognized name, or a
required field absent (`tip` for `addNote`; `question`/`answer` for
`answerQuestion`; `topic`/`explanation` for `provideContext`). -/
def malformedOrUnknown (fc : FunctionCall) : Prop :=
  (fc.name ≠ "addNote" ∧ fc.name ≠ "answerQuestion" ∧ fc.name ≠ "provideContext") ∨
  (fc.name = "addNote" ∧ fc.args.tip = none) ∨
  (fc.name = "answerQuestion" ∧ (fc.args.question = none ∨ fc.args.answer = none)) ∨
  (fc.name = "provideContext" ∧ (fc.args.topic = none ∨ fc.args.explanation = none))

/-- **C6.** Every tool-call invocation with an unrecognized name or a
missing required field is silently dropped: the whole state — transcript,
archived notes, active note, error flag, even the speech log — is exactly
unchanged (src/App.tsx:134-147 has no else branch and surfaces nothing). -/
theorem malformed_toolcall_dropped (s : OrchState) (fc : FunctionCall)
    (h : malformedOrUnknown fc) :
    processFunctionCall s fc = s := by
  unfold processFunctionCall
  split_ifs with h1 h2 h3
  · exfalso
    rcases h with ⟨ha, _, _⟩ | ⟨_, hb⟩ | ⟨ha, _⟩ | ⟨ha, _⟩
    · exact ha h1.1
    · rw [hb] at h1
      exact absurd h1.2 (by decide)
    · rw [h1.1] at ha
      exact absurd ha (by decide)
    · rw [h1.1] at ha
      exact absurd ha (by decide)
  · exfalso
    rcases h with ⟨_, ha, _⟩ | ⟨ha, _⟩ | ⟨_, hb | hb⟩ | ⟨ha, _⟩
    · exact ha h2.1
    · rw [h2.1] at ha
      exact absurd ha (by decide)
    · rw [hb] at h2
      exact absurd h2.2.1 (by decide)
    · rw [hb] at h2
      exact absurd h2.2.2 (by decide)
    · rw [h2.1] at ha
      exact absurd ha (by decide)
  · exfalso
    rcases h with ⟨_, _, ha⟩ | ⟨ha, _⟩ | ⟨ha, _⟩ | ⟨_, hb | hb⟩
    · exact ha h3.1
    · rw [h3.1] at ha
      exact absurd ha (by decide)
    · rw [h3.1] at ha
      exact absurd ha (by decide)
    · rw [hb] at h3
      exact absurd h3.2.1 (by decide)
    · rw [hb] at h3
      exact absurd h3.2.2 (by decide)
  · rfl

/-- Witness for C6: an unrecognized tool name leaves the blank state
exactly unchanged. -/
theorem malformed_toolcall_dropped_witness :
    processFunctionCall initialState { name := "transcribe", args := {} } = initialState :=
  malformed_toolcall_dropped initialState { name := "transcribe", args := {} }
    (Or.inl ⟨by decide, by decide, by decide⟩)

/-- **C7 counterexample.** With the contextualize setting disabled the
`provideContext` schema is indeed not declared (src/App.tsx:150-151), but
the message handler does not consult the setting: a well-formed
`provideContext` tool-call event still creates a `context` note and sets
it active (src/App.tsx:142-144), refuting "a provideContext event produces
no note" when the setting is disabled. -/
theorem provideContext_without_declaration_counterexample :
    "provideContext" ∉ declaredTools false ∧
    (processFunctionCall initialState
        (mkProvideContext (some "Tema") (some "Una explicación"))).activeAiResponse =
      some { id := 0, type := NoteType.context, content := "Una explicación",
             topic := some "Tema" } := by
  exact ⟨by decide, rfl⟩

/-- **C7 (amended).** The `provideContext` tool schema is declared for a
session exactly when the contextualize setting is enabled at session start
(src/App.tsx:150-151); the `onMessage` handler itself, however, processes a
well-formed `provideContext` tool-call unconditionally — creating a
`context` note and setting it active — regardless of the setting, so the
absence of such notes when the setting is disabled relies on the remote
service invoking only declared tools, not on the handler. -/
theorem provideContext_declaration_and_handler (b : Bool) (s : OrchState)
    (fc : FunctionCall) (hname : fc.name = "provideContext")
    (htop : jsTruthy fc.args.topic) (hexp : jsTruthy fc.args.explanation) :
    ("provideContext" ∈ declaredTools b ↔ b = true) ∧
    (processFunctionCall s fc).activeAiResponse =
      some { id := s.nextId, type := NoteType.context,
             content := fc.args.explanation.getD "", topic := fc.args.topic } := by
  constructor
  · cases b <;> simp [declaredTools]
  · rw [processFunctionCall_provideContext s fc hname htop hexp]

/-- Witness for C7 (amended): contextualize disabled, yet a concrete
well-formed `provideContext` call activates a context note. -/
theorem provideContext_declaration_and_handler_witness :
    ("provideContext" ∈ declaredTools false ↔ false = true) ∧
    (processFunctionCall initialState
        (mkProvideContext (some "Sepsis") (some "Respuesta inflamatoria"))).activeAiResponse =
      some { id := 0, type := NoteType.context, content := "Respuesta inflamatoria",
             topic := some "Sepsis" } :=
  provideContext_declaration_and_handler false initialState
    (mkProvideContext (some "Sepsis") (some "Respuesta inflamatoria"))
    rfl (by decide) (by decide)

/-- **C8.** The `SessionRecord` built at finalize carries the final
transcript, the archived sequence with the active note (if any) appended
last, the fresh identifier handed in for `crypto.randomUUID()`, and the
`Date.now()` timestamp — uniformly in the outcome of the remote call, so
on the success, empty-transcript and failure paths alike
(src/App.tsx:105-110). -/
theorem stop_record_fields (freshId now : Nat) (dateStr : String)
    (remote : String → RemoteResult) (s : OrchState) :
    (stopSessionRecord freshId now dateStr remote s).id = freshId ∧
    (stopSessionRecord freshId now dateStr remote s).date = now ∧
    (stopSessionRecord freshId now dateStr remote s).transcription = s.transcription ∧
    (stopSessionRecord freshId now dateStr remote s).notes =
      s.notes ++ s.activeAiResponse.toList := by
  unfold stopSessionRecord
  cases h : s.activeAiResponse <;> simp [h]

/-- **C9.** Tool-call handling is frame-preserving outside its target: a
valid `addNote` leaves the active slot and the transcript unchanged
(src/App.tsx:136-138), and a valid `answerQuestion` or `provideContext`
leaves the archived sequence and the transcript unchanged
(src/App.tsx:139-145). -/
theorem toolcall_frame (s : OrchState) (fc : FunctionCall) :
    (fc.name = "addNote" → jsTruthy fc.args.tip →
      (processFunctionCall s fc).activeAiResponse = s.activeAiResponse ∧
      (processFunctionCall s fc).transcription = s.transcription) ∧
    ((fc.name = "answerQuestion" ∧ jsTruthy fc.args.question ∧ jsTruthy fc.args.answer) ∨
     (fc.name = "provideContext" ∧ jsTruthy fc.args.topic ∧ jsTruthy fc.args.explanation) →
      (processFunctionCall s fc).notes = s.notes ∧
      (processFunctionCall s fc).transcription = s.transcription) := by
  constructor
  · intro hname htip
    rw [processFunctionCall_addNote s fc hname htip]
    exact ⟨rfl, rfl⟩
  · rintro (⟨hname, hq, ha⟩ | ⟨hname, ht, he⟩)
    · rw [processFunctionCall_answerQuestion s fc hname hq ha]
      exact ⟨rfl, rfl⟩
    · rw [processFunctionCall_provideContext s fc hname ht he]
      exact ⟨rfl, rfl⟩

/-- Witness for C9: a concrete valid `addNote` call leaves the active slot
and the transcript of the blank state unchanged. -/
theorem toolcall_frame_witness :
    (processFunctionCall initialState (mkAddNote (some "Repasar el tema"))).activeAiResponse =
      initialState.activeAiResponse ∧
    (processFunctionCall initialState (mkAddNote (some "Repasar el tema"))).transcription =
      initialState.transcription :=
  (toolcall_frame initialState (mkAddNote (some "Repasar el tema"))).1 rfl (by decide)

/-- **C10.** Starting a session resets the orchestrator state — transcript
to the empty string, archived notes to the empty list, active note to
none, error to none, countdown to the full 600-second duration — as the
first synchronous step of `startSession` (src/App.tsx:124), before the
`await` on device acquisition, so whatever the acquisition outcome no
transcript, notes or active card of a previous or aborted session is
visible; only the error flag depends on the acquisition result
(src/App.tsx:162). -/
theorem startSession_resets (s : OrchState) (deviceOk : Bool) :
    (startSession s deviceOk).transcription = "" ∧
    (startSession s deviceOk).notes = [] ∧
    (startSession s deviceOk).activeAiResponse = none ∧
    (startSession s deviceOk).timeLeft = 600 ∧
    (startSession s deviceOk).timeLeft = MAX_SESSION_TIME_SECONDS ∧
    (startSession s deviceOk).error =
      (if deviceOk then none else some "No se pudo acceder al micrófono.") := by
  unfold startSession
  cases deviceOk <;> simp [MAX_SESSION_TIME_SECONDS]

end Asclepio
